import Mathlib

/-!
Shallow embedding of the `SimpleFlareWallet` Solidity contract
(owner-gated native-value vault for Flare Coston2).

Modelling choices:
* Addresses are `Nat`; `0` is the zero/null address `address(0)`.
* Amounts are `Nat` (wei).  The contract performs no arithmetic of its
  own: balance changes are ledger credits/debits done by the EVM, which
  cannot overflow `uint256` (total native supply is far below `2^256`)
  and cannot underflow (a send of `a` only happens after the
  `balance >= a` guard), so `Nat` is a faithful embedding.
* `address(this).balance` is the `balance` field of the state.
* A `require(c, "msg")` that fails is a revert: the whole call is
  rejected and no state change or event persists.  We embed each
  external function as a total function returning
  `Except VaultError (VaultState × List Event)`: an `Except.error`
  result carries no state and no events, i.e. the pre-state is kept
  unchanged and nothing is emitted.
* The low-level transfer `_to.call{value: a}("")` may be accepted or
  rejected by the recipient; this environment choice is a parameter
  `accepts : Nat → Nat → Bool` (recipient, amount).  On acceptance the
  EVM debits the vault by exactly the sent amount.
* Revert reasons are mapped onto the spec error taxonomy:
  "Not owner" ↦ `Unauthorized`, "Zero address" ↦ `InvalidRecipient`,
  "Insufficient balance" ↦ `InsufficientBalance`,
  "No balance" ↦ `NoBalance`, "No FLR sent" ↦ `ZeroValue`,
  "Transfer failed" ↦ `TransferFailed`.
-/

/-- Error taxonomy of the vault, one constructor per revert reason. -/
inductive VaultError where
  | Unauthorized
  | InvalidRecipient
  | InsufficientBalance
  | NoBalance
  | ZeroValue
  | TransferFailed
  deriving Repr, DecidableEq

/-- Events emitted by the contract. -/
inductive Event where
  | Deposited (sender amount : Nat)
  | Withdrawn (toAddr amount : Nat)
  | OwnerChanged (oldOwner newOwner : Nat)
  deriving Repr, DecidableEq

/-- Contract state: the `owner` storage slot and the vault account's
native balance `address(this).balance`. -/
structure VaultState where
  owner : Nat
  balance : Nat
  deriving Repr, DecidableEq

/-- Embeds `constructor() { owner = msg.sender; }`: the creator becomes
owner; a freshly deployed contract account holds no value. -/
def deploy (creator : Nat) : VaultState :=
  { owner := creator, balance := 0 }

/-- Embeds `changeOwner(address _newOwner) external onlyOwner`.
The `onlyOwner` modifier is `require(msg.sender == owner, "Not owner")`;
then `require(_newOwner != address(0), "Zero address")`; the
`OwnerChanged(owner, _newOwner)` event is emitted before the
assignment, so it carries the pre-reassignment owner. -/
def changeOwner (s : VaultState) (sender newOwner : Nat) :
    Except VaultError (VaultState × List Event) :=
  if sender ≠ s.owner then .error .Unauthorized
  else if newOwner = 0 then .error .InvalidRecipient
  else .ok ({ s with owner := newOwner },
            [Event.OwnerChanged s.owner newOwner])

/-- Embeds `deposit() external payable`.  `require(msg.value > 0,
"No FLR sent")`; on success the EVM has credited the attached value onto
the vault account and `Deposited(msg.sender, msg.value)` is emitted
(a revert undoes the credit, so the error branch keeps the pre-state). -/
def deposit (s : VaultState) (sender value : Nat) :
    Except VaultError (VaultState × List Event) :=
  if value > 0 then
    .ok ({ s with balance := s.balance + value },
         [Event.Deposited sender value])
  else .error .ZeroValue

/-- Embeds `withdraw(address payable _to, uint256 _amount) external
onlyOwner`: owner gate, then `require(_to != address(0))`, then
`require(address(this).balance >= _amount)`, then the low-level call;
`require(success, "Transfer failed")`; `Withdrawn(_to, _amount)` is
emitted only after the transfer succeeded. -/
def withdraw (s : VaultState) (sender toAddr amount : Nat)
    (accepts : Nat → Nat → Bool) :
    Except VaultError (VaultState × List Event) :=
  if sender ≠ s.owner then .error .Unauthorized
  else if toAddr = 0 then .error .InvalidRecipient
  else if s.balance < amount then .error .InsufficientBalance
  else if accepts toAddr amount then
    .ok ({ s with balance := s.balance - amount },
         [Event.Withdrawn toAddr amount])
  else .error .TransferFailed

/-- Embeds `withdrawAll(address payable _to) external onlyOwner`:
owner gate, then `uint256 balance = address(this).balance;
require(balance > 0, "No balance"); require(_to != address(0))`, then
the low-level call sending the whole snapshot balance. -/
def withdrawAll (s : VaultState) (sender toAddr : Nat)
    (accepts : Nat → Nat → Bool) :
    Except VaultError (VaultState × List Event) :=
  if sender ≠ s.owner then .error .Unauthorized
  else
    let balance := s.balance
    if balance = 0 then .error .NoBalance
    else if toAddr = 0 then .error .InvalidRecipient
    else if accepts toAddr balance then
      .ok ({ s with balance := s.balance - balance },
           [Event.Withdrawn toAddr balance])
    else .error .TransferFailed

/-- Embeds `getBalance() external view`. -/
def getBalance (s : VaultState) : Nat :=
  s.balance

/-- Embeds `receive() external payable { emit Deposited(msg.sender,
msg.value); }`: a bare value transfer is always accepted, the EVM
credits the attached value, and a `Deposited` event is emitted even
for a zero attached value. -/
def receiveTransfer (s : VaultState) (sender value : Nat) :
    VaultState × List Event :=
  ({ s with balance := s.balance + value },
   [Event.Deposited sender value])

/-- One successful externally triggered state transition of the vault
(a failed call reverts and does not change the state, so it induces no
step). -/
inductive Step : VaultState → VaultState → Prop where
  | ofChangeOwner (s : VaultState) (sender newOwner : Nat)
      (s' : VaultState) (ev : List Event)
      (h : changeOwner s sender newOwner = .ok (s', ev)) : Step s s'
  | ofDeposit (s : VaultState) (sender value : Nat)
      (s' : VaultState) (ev : List Event)
      (h : deposit s sender value = .ok (s', ev)) : Step s s'
  | ofWithdraw (s : VaultState) (sender toAddr amount : Nat)
      (accepts : Nat → Nat → Bool) (s' : VaultState) (ev : List Event)
      (h : withdraw s sender toAddr amount accepts = .ok (s', ev)) : Step s s'
  | ofWithdrawAll (s : VaultState) (sender toAddr : Nat)
      (accepts : Nat → Nat → Bool) (s' : VaultState) (ev : List Event)
      (h : withdrawAll s sender toAddr accepts = .ok (s', ev)) : Step s s'
  | ofReceive (s : VaultState) (sender value : Nat) :
      Step s (receiveTransfer s sender value).1

/-- States reachable from deployment by the given creator. -/
inductive Reachable (creator : Nat) : VaultState → Prop where
  | init : Reachable creator (deploy creator)
  | step {s s' : VaultState} :
      Reachable creator s → Step s s' → Reachable creator s'

/-- C1: an owner-initiated withdrawal of an amount within the balance
into a non-null recipient that accepts the transfer succeeds, debits the
balance by exactly the amount (the second conjunct rules out truncated
subtraction), and emits exactly `Withdrawn(toAddr, amount)`. -/
theorem withdraw_success (s : VaultState) (sender toAddr amount : Nat)
    (accepts : Nat → Nat → Bool)
    (hown : sender = s.owner) (hto : toAddr ≠ 0)
    (hamt : amount ≤ s.balance) (hacc : accepts toAddr amount = true) :
    withdraw s sender toAddr amount accepts =
      .ok ({ s with balance := s.balance - amount },
           [Event.Withdrawn toAddr amount]) ∧
    (s.balance - amount) + amount = s.balance := by
  refine ⟨?_, Nat.sub_add_cancel hamt⟩
  simp [withdraw, hown, hto, hacc, Nat.not_lt.mpr hamt]

theorem withdraw_success_witness :
    withdraw ⟨1, 10⟩ 1 2 4 (fun _ _ => true) =
      .ok (⟨1, 6⟩, [Event.Withdrawn 2 4]) ∧ 6 + 4 = 10 :=
  withdraw_success ⟨1, 10⟩ 1 2 4 (fun _ _ => true)
    rfl (by decide) (by decide) rfl

/-- C2: whenever a withdrawal reaches the low-level transfer and the
recipient rejects it, the whole call reverts with `TransferFailed`; in
this embedding an `Except.error` result by construction leaves the
state unchanged (no partial debit) and emits no `Withdrawn` event —
events appear only inside an `Except.ok` result. -/
theorem transfer_rejected_reverts (s : VaultState)
    (sender toAddr amount : Nat) (accepts : Nat → Nat → Bool) :
    (sender = s.owner → toAddr ≠ 0 → amount ≤ s.balance →
      accepts toAddr amount = false →
      withdraw s sender toAddr amount accepts = .error .TransferFailed) ∧
    (sender = s.owner → 0 < s.balance → toAddr ≠ 0 →
      accepts toAddr s.balance = false →
      withdrawAll s sender toAddr accepts = .error .TransferFailed) := by
  constructor
  · intro hown hto hamt hacc
    simp [withdraw, hown, hto, hacc, Nat.not_lt.mpr hamt]
  · intro hown hbal hto hacc
    simp [withdrawAll, hown, hto, hacc, Nat.pos_iff_ne_zero.mp hbal]

theorem transfer_rejected_reverts_witness :
    withdraw ⟨1, 10⟩ 1 2 4 (fun _ _ => false) =
      .error .TransferFailed ∧
    withdrawAll ⟨1, 10⟩ 1 2 (fun _ _ => false) =
      .error .TransferFailed :=
  ⟨(transfer_rejected_reverts ⟨1, 10⟩ 1 2 4 (fun _ _ => false)).1
      rfl (by decide) (by decide) rfl,
   (transfer_rejected_reverts ⟨1, 10⟩ 1 2 4 (fun _ _ => false)).2
      rfl (by decide) (by decide) rfl⟩

/-- C3: a caller other than the stored owner is rejected with
`Unauthorized` by every restricted operation (`withdraw`,
`withdrawAll`, `changeOwner`); the error result carries no state and
no events, so owner and balance are unchanged and nothing is
emitted. -/
theorem nonowner_unauthorized (s : VaultState)
    (sender toAddr amount newOwner : Nat) (accepts : Nat → Nat → Bool)
    (h : sender ≠ s.owner) :
    withdraw s sender toAddr amount accepts = .error .Unauthorized ∧
    withdrawAll s sender toAddr accepts = .error .Unauthorized ∧
    changeOwner s sender newOwner = .error .Unauthorized := by
  refine ⟨?_, ?_, ?_⟩ <;> simp [withdraw, withdrawAll, changeOwner, h]

theorem nonowner_unauthorized_witness :
    withdraw ⟨1, 10⟩ 2 3 4 (fun _ _ => true) = .error .Unauthorized ∧
    withdrawAll ⟨1, 10⟩ 2 3 (fun _ _ => true) = .error .Unauthorized ∧
    changeOwner ⟨1, 10⟩ 2 3 = .error .Unauthorized :=
  nonowner_unauthorized ⟨1, 10⟩ 2 3 4 3 (fun _ _ => true) (by decide)

/-- C4: an owner-initiated withdrawal of more than the current balance
reverts with `InsufficientBalance` (balance unchanged, the error
result carrying no state change); and sufficiency is re-checked per
call: when a first `withdraw(toAddr, amount)` succeeds and leaves the
balance below `amount`, an identical second call reverts with
`InsufficientBalance`. -/
theorem withdraw_insufficient (s : VaultState)
    (sender toAddr amount : Nat) (accepts : Nat → Nat → Bool)
    (hown : sender = s.owner) (hto : toAddr ≠ 0) :
    (s.balance < amount →
      withdraw s sender toAddr amount accepts = .error .InsufficientBalance) ∧
    (amount ≤ s.balance → accepts toAddr amount = true →
      s.balance - amount < amount →
      withdraw s sender toAddr amount accepts =
        .ok ({ s with balance := s.balance - amount },
             [Event.Withdrawn toAddr amount]) ∧
      withdraw { s with balance := s.balance - amount }
          sender toAddr amount accepts = .error .InsufficientBalance) := by
  constructor
  · intro hlt
    simp [withdraw, hown, hto, hlt]
  · intro hle hacc hlt
    constructor
    · simp [withdraw, hown, hto, hacc, Nat.not_lt.mpr hle]
    · simp [withdraw, hown, hto, hlt]

theorem withdraw_insufficient_witness :
    withdraw ⟨1, 5⟩ 1 2 3 (fun _ _ => true) =
      .ok (⟨1, 2⟩, [Event.Withdrawn 2 3]) ∧
    withdraw ⟨1, 2⟩ 1 2 3 (fun _ _ => true) =
      .error .InsufficientBalance :=
  (withdraw_insufficient ⟨1, 5⟩ 1 2 3 (fun _ _ => true) rfl
      (by decide)).2 (by decide) rfl (by decide)

/-- C5: on a vault with positive balance, `withdrawAll(toAddr)` is
extensionally equal to `withdraw(toAddr, balance)` at the balance
observed at call time — same resulting state, events and failure kind;
on an empty vault it instead fails with `NoBalance` when the caller is
the owner (and with `Unauthorized`, like `withdraw`, otherwise). -/
theorem withdrawAll_refines_withdraw (s : VaultState)
    (sender toAddr : Nat) (accepts : Nat → Nat → Bool) :
    (0 < s.balance →
      withdrawAll s sender toAddr accepts =
        withdraw s sender toAddr s.balance accepts) ∧
    (s.balance = 0 → sender = s.owner →
      withdrawAll s sender toAddr accepts = .error .NoBalance) ∧
    (s.balance = 0 → sender ≠ s.owner →
      withdrawAll s sender toAddr accepts = .error .Unauthorized ∧
      withdraw s sender toAddr s.balance accepts = .error .Unauthorized) := by
  refine ⟨?_, ?_, ?_⟩
  · intro h
    simp [withdrawAll, withdraw, Nat.pos_iff_ne_zero.mp h, Nat.lt_irrefl]
  · intro h hown
    simp [withdrawAll, hown, h]
  · intro h hown
    constructor <;> simp [withdrawAll, withdraw, hown]

theorem withdrawAll_refines_withdraw_witness :
    withdrawAll ⟨1, 7⟩ 1 2 (fun _ _ => true) =
      withdraw ⟨1, 7⟩ 1 2 7 (fun _ _ => true) ∧
    withdrawAll ⟨1, 0⟩ 1 2 (fun _ _ => true) = .error .NoBalance :=
  ⟨(withdrawAll_refines_withdraw ⟨1, 7⟩ 1 2 (fun _ _ => true)).1 (by decide),
   (withdrawAll_refines_withdraw ⟨1, 0⟩ 1 2 (fun _ _ => true)).2.1 rfl rfl⟩

/-- C6: `changeOwner(0)` by the owner reverts with `InvalidRecipient`
(owner unchanged, the error carrying no state change);
`changeOwner(X)` with `X ≠ 0` sets the owner to `X` and emits
`OwnerChanged(oldOwner, X)` with the pre-reassignment owner; in the
resulting state every restricted call by anyone other than `X` —
in particular by the old owner — reverts with `Unauthorized`, while
a call by `X` passes the owner gate. -/
theorem changeOwner_spec (s : VaultState) (sender : Nat)
    (hown : sender = s.owner) :
    changeOwner s sender 0 = .error .InvalidRecipient ∧
    (∀ X, X ≠ 0 →
      changeOwner s sender X =
        .ok ({ s with owner := X }, [Event.OwnerChanged s.owner X])) ∧
    (∀ X c toAddr amount newOwner accepts, c ≠ X →
      withdraw { s with owner := X } c toAddr amount accepts =
        .error .Unauthorized ∧
      withdrawAll { s with owner := X } c toAddr accepts =
        .error .Unauthorized ∧
      changeOwner { s with owner := X } c newOwner =
        .error .Unauthorized) ∧
    (∀ X toAddr amount newOwner accepts,
      withdraw { s with owner := X } X toAddr amount accepts ≠
        .error .Unauthorized ∧
      withdrawAll { s with owner := X } X toAddr accepts ≠
        .error .Unauthorized ∧
      changeOwner { s with owner := X } X newOwner ≠
        .error .Unauthorized) := by
  refine ⟨?_, ?_, ?_, ?_⟩
  · simp [changeOwner, hown]
  · intro X hX
    simp [changeOwner, hown, hX]
  · intro X c toAddr amount newOwner accepts hc
    refine ⟨?_, ?_, ?_⟩ <;> simp [withdraw, withdrawAll, changeOwner, hc]
  · intro X toAddr amount newOwner accepts
    refine ⟨?_, ?_, ?_⟩ <;>
      (simp only [withdraw, withdrawAll, changeOwner]; split_ifs <;> simp_all)

theorem changeOwner_spec_witness :
    changeOwner ⟨1, 10⟩ 1 0 = .error .InvalidRecipient ∧
    changeOwner ⟨1, 10⟩ 1 2 =
      .ok (⟨2, 10⟩, [Event.OwnerChanged 1 2]) ∧
    (withdraw ⟨2, 10⟩ 1 3 4 (fun _ _ => true) = .error .Unauthorized ∧
     withdrawAll ⟨2, 10⟩ 1 3 (fun _ _ => true) = .error .Unauthorized ∧
     changeOwner ⟨2, 10⟩ 1 5 = .error .Unauthorized) ∧
    (withdraw ⟨2, 10⟩ 2 3 4 (fun _ _ => true) ≠ .error .Unauthorized ∧
     withdrawAll ⟨2, 10⟩ 2 3 (fun _ _ => true) ≠ .error .Unauthorized ∧
     changeOwner ⟨2, 10⟩ 2 5 ≠ .error .Unauthorized) :=
  ⟨(changeOwner_spec ⟨1, 10⟩ 1 rfl).1,
   (changeOwner_spec ⟨1, 10⟩ 1 rfl).2.1 2 (by decide),
   (changeOwner_spec ⟨1, 10⟩ 1 rfl).2.2.1 2 1 3 4 5 (fun _ _ => true)
     (by decide),
   (changeOwner_spec ⟨1, 10⟩ 1 rfl).2.2.2 2 3 4 5 (fun _ _ => true)⟩

/-- C8: `deposit()` with zero attached value reverts with `ZeroValue`
(balance unchanged, no event — the error result carries neither);
with positive attached value `v` it succeeds, the balance grows by
exactly `v`, and `Deposited(sender, v)` is emitted. -/
theorem deposit_spec (s : VaultState) (sender value : Nat) :
    deposit s sender 0 = .error .ZeroValue ∧
    (0 < value →
      deposit s sender value =
        .ok ({ s with balance := s.balance + value },
             [Event.Deposited sender value])) := by
  constructor
  · simp [deposit]
  · intro h
    simp [deposit, h]

theorem deposit_spec_witness :
    deposit ⟨1, 10⟩ 2 0 = .error .ZeroValue ∧
    deposit ⟨1, 10⟩ 2 5 = .ok (⟨1, 15⟩, [Event.Deposited 2 5]) :=
  ⟨(deposit_spec ⟨1, 10⟩ 2 5).1,
   (deposit_spec ⟨1, 10⟩ 2 5).2 (by decide)⟩

/-- C9: a bare value transfer handled by the `receive()` catch-all is
accepted for every attached value, including zero: it credits the
balance by the value and emits `Deposited(sender, value)` — so a
zero-amount `Deposited` event is observable through this path even
though `deposit()` rejects zero value. -/
theorem receive_accepts_any_value (s : VaultState) (sender value : Nat) :
    receiveTransfer s sender value =
      ({ s with balance := s.balance + value },
       [Event.Deposited sender value]) ∧
    receiveTransfer s sender 0 = (s, [Event.Deposited sender 0]) ∧
    deposit s sender 0 = .error .ZeroValue := by
  refine ⟨rfl, ?_, by simp [deposit]⟩
  simp [receiveTransfer]

/-- C10: with balance zero and an owner caller, `withdrawAll` reverts
with `NoBalance` for every recipient, the null recipient included: its
balance-positivity check runs before its null-recipient check. In
`withdraw` the order is reversed: a null recipient yields
`InvalidRecipient` for every requested amount, even one exceeding the
balance. -/
theorem withdrawAll_balance_check_first (s : VaultState)
    (sender toAddr amount : Nat) (accepts : Nat → Nat → Bool)
    (hown : sender = s.owner) (hbal : s.balance = 0) :
    withdrawAll s sender toAddr accepts = .error .NoBalance ∧
    withdraw s sender 0 amount accepts = .error .InvalidRecipient := by
  constructor
  · simp [withdrawAll, hown, hbal]
  · simp [withdraw, hown]

theorem withdrawAll_balance_check_first_witness :
    withdrawAll ⟨1, 0⟩ 1 0 (fun _ _ => true) = .error .NoBalance ∧
    withdraw ⟨1, 0⟩ 1 0 5 (fun _ _ => true) = .error .InvalidRecipient :=
  withdrawAll_balance_check_first ⟨1, 0⟩ 1 0 5 (fun _ _ => true) rfl rfl

/-- Every successful operation keeps the owner non-null: `changeOwner`
guards its new owner against the null address, and no other operation
touches the owner slot. -/
theorem step_preserves_owner_ne_zero {s s' : VaultState}
    (hstep : Step s s') (ho : s.owner ≠ 0) : s'.owner ≠ 0 := by
  cases hstep with
  | ofChangeOwner sender newOwner s' ev h =>
    simp only [changeOwner] at h
    split_ifs at h
    all_goals simp only [Except.ok.injEq, Prod.mk.injEq] at h
    all_goals obtain ⟨hs, -⟩ := h
    all_goals subst hs
    all_goals simp_all
  | ofDeposit sender value s' ev h =>
    simp only [deposit] at h
    split_ifs at h
    all_goals simp only [Except.ok.injEq, Prod.mk.injEq] at h
    all_goals obtain ⟨hs, -⟩ := h
    all_goals subst hs
    all_goals simp_all
  | ofWithdraw sender toAddr amount accepts s' ev h =>
    simp only [withdraw] at h
    split_ifs at h
    all_goals simp only [Except.ok.injEq, Prod.mk.injEq] at h
    all_goals obtain ⟨hs, -⟩ := h
    all_goals subst hs
    all_goals simp_all
  | ofWithdrawAll sender toAddr accepts s' ev h =>
    simp only [withdrawAll] at h
    split_ifs at h
    all_goals simp only [Except.ok.injEq, Prod.mk.injEq] at h
    all_goals obtain ⟨hs, -⟩ := h
    all_goals subst hs
    all_goals simp_all
  | ofReceive sender value =>
    exact ho

/-- C7: in every state reachable from deployment by a non-null
creator, the owner is non-null and the balance is non-negative; both
predicates are preserved by every operation (a failed operation
reverts, contributing no step, so preservation is immediate there). -/
theorem reachable_invariants (creator : Nat) (s : VaultState)
    (hc : creator ≠ 0) (hr : Reachable creator s) :
    s.owner ≠ 0 ∧ 0 ≤ s.balance := by
  refine ⟨?_, Nat.zero_le _⟩
  induction hr with
  | init => exact hc
  | step hr hstep ih => exact step_preserves_owner_ne_zero hstep ih

theorem reachable_invariants_witness :
    (deploy 1).owner ≠ 0 ∧ 0 ≤ (deploy 1).balance :=
  reachable_invariants 1 (deploy 1) (by decide) Reachable.init
